import Mathlib

/-!
A shallow embedding of `tap_zendesk/streams.py` (a Singer tap for the Zendesk
helpdesk API) together with proofs of the behavioural claims about it.

The repository source under verification is the single module `streams.py`.
Its collaborators (`singer`, `singer.utils`, `singer.metadata`, and the
Zenpy client's cursor generator) are external libraries; they are modelled
here following the specification's description of their interfaces
(state as a nested mapping stream-name -> field -> value, timestamps parsed
to instants, a paginated audit generator exposing `before_cursor` and a
mutable `position`).
-/

set_option autoImplicit false

/-- A value stored in the bookmark state, or carried by a record field.
`ts t` stands for a string parsing as a timezone-aware timestamp with
instant `t`; `str v` stands for a string that does not parse as a
timestamp (for example an opaque pagination cursor token); `null` stands
for Python `None`, which `singer.get_bookmark` returns when the entry is
absent. -/
inductive BVal where
  | null : BVal
  | ts (t : Nat) : BVal
  | str (v : Nat) : BVal
deriving DecidableEq, Repr

/-- Python truthiness of a stored bookmark value (`if cursor_bookmark:`):
`None` is falsy, a non-empty string is truthy. -/
def BVal.truthy : BVal → Bool
  | BVal.null => false
  | _ => true

/-- Association-list lookup, the model of Python `dict` access. -/
def alGet {κ α : Type} [DecidableEq κ] : List (κ × α) → κ → Option α
  | [], _ => none
  | (k', v) :: rest, k => if k' = k then some v else alGet rest k

/-- Association-list update-or-append, the model of Python `dict`
assignment (existing keys are updated in place, new keys are appended,
preserving insertion order). -/
def alPut {κ α : Type} [DecidableEq κ] :
    List (κ × α) → κ → α → List (κ × α)
  | [], k, v => [(k, v)]
  | (k', v') :: rest, k, v =>
    if k' = k then (k, v) :: rest else (k', v') :: alPut rest k v

/-- The per-stream slice of the bookmark state: field name -> value. -/
abbrev StreamState := List (String × BVal)

/-- Modelled from the spec: "State: a nested mapping from stream name to a
mapping of bookmark field name to value" (spec section 3); the in-memory
state dict read and written through the external `singer` library. -/
abbrev TapState := List (String × StreamState)

/-- Modelled from the spec: the external `singer.get_bookmark(state, name,
key)` helper. Returns the stored value, or `None` (here `BVal.null`) when
the stream or the field is absent — Python's `dict.get` default conflates
"missing" with a stored `None`. -/
def singer.get_bookmark (state : TapState) (name key : String) : BVal :=
  match alGet state name with
  | none => BVal.null
  | some m => (alGet m key).getD BVal.null

/-- Modelled from the spec: the external `singer.write_bookmark(state,
name, key, value)` helper; ensures the nested path exists and assigns
`state[name][key] = value`. -/
def singer.write_bookmark (state : TapState) (name key : String) (v : BVal) :
    TapState :=
  alPut state name (alPut ((alGet state name).getD []) key v)

/-- Modelled from the spec: the external `singer.utils.strptime_with_tz`
parser. It yields a timezone-aware instant exactly when the argument is a
string parsing as a timestamp; on `None` or a malformed string it raises
(modelled as `none`), with no fallback. -/
def utils.strptime_with_tz : BVal → Option Nat
  | BVal.ts t => some t
  | _ => none

/-- A record returned by the remote client for the non-audit streams: an
opaque payload identity together with its `updated_at` field. -/
structure Rec where
  rid : Nat
  updated_at : BVal
deriving DecidableEq, Repr

/-- The parsed timestamp of a record (defaulting to `0` when the field
does not parse; only used under parse-success hypotheses). -/
def tsOf (r : Rec) : Nat := (utils.strptime_with_tz r.updated_at).getD 0

/-- `KEY_PROPERTIES = ['id']` (streams.py line 9). -/
def KEY_PROPERTIES : List String := ["id"]

/-- The class-level attributes of a stream (streams.py lines 14-18 and the
subclasses): `name`, `replication_method` and `replication_key` default to
Python `None`, `key_properties` to the module-level `KEY_PROPERTIES`. -/
structure StreamDef where
  name : Option String
  replication_method : Option String
  replication_key : Option String
  key_properties : List String
deriving DecidableEq, Repr

/-- The attribute defaults of the base `Stream` class (lines 14-18); named
`StreamBase` because `Stream` is taken by the Lean core library. -/
def StreamBase : StreamDef :=
  { name := none
    replication_method := none
    replication_key := none
    key_properties := KEY_PROPERTIES }

/-- `Stream.get_bookmark` (line 23-24): parse `state[name][replication_key]`
as a timezone-aware timestamp; `none` models the parse exception raised on
a missing or malformed entry. -/
def Stream.get_bookmark (name key : String) (state : TapState) : Option Nat :=
  utils.strptime_with_tz (singer.get_bookmark state name key)

/-- `Stream.update_bookmark` (lines 26-27): write the raw value to
`state[name][replication_key]`. -/
def Stream.update_bookmark (name key : String) (state : TapState) (v : BVal) :
    TapState :=
  singer.write_bookmark state name key v

/-- `Organizations` class attributes (lines 50-53). -/
def Organizations : StreamDef :=
  { StreamBase with
    name := some "organizations"
    replication_method := some "INCREMENTAL"
    replication_key := some "updated_at" }

/-- `Users` class attributes (lines 62-65). -/
def Users : StreamDef :=
  { StreamBase with
    name := some "users"
    replication_method := some "INCREMENTAL"
    replication_key := some "updated_at" }

/-- `Tickets` class attributes (lines 74-77). -/
def Tickets : StreamDef :=
  { StreamBase with
    name := some "tickets"
    replication_method := some "INCREMENTAL"
    replication_key := some "updated_at" }

/-- `TicketAudits` class attributes (lines 86-89). -/
def TicketAudits : StreamDef :=
  { StreamBase with
    name := some "ticket-audits"
    replication_method := some "INCREMENTAL"
    replication_key := some "created_at" }

/-- `Groups` class attributes (lines 126-129). -/
def Groups : StreamDef :=
  { StreamBase with
    name := some "groups"
    replication_method := some "INCREMENTAL"
    replication_key := some "updated_at" }

/-- `Macros` class attributes (lines 140-143). -/
def Macros : StreamDef :=
  { StreamBase with
    name := some "macros"
    replication_method := some "INCREMENTAL"
    replication_key := some "updated_at" }

/-- `Tags` class attributes (lines 154-157): `FULL_TABLE`, no replication
key, and `key_properties` overridden to the empty list. -/
def Tags : StreamDef :=
  { StreamBase with
    name := some "tags"
    replication_method := some "FULL_TABLE"
    key_properties := [] }

/-- `TicketFields` class attributes (lines 162-165). -/
def TicketFields : StreamDef :=
  { StreamBase with
    name := some "ticket-fields"
    replication_method := some "INCREMENTAL"
    replication_key := some "updated_at" }

/-- `TicketMetrics` class attributes (lines 176-179). -/
def TicketMetrics : StreamDef :=
  { StreamBase with
    name := some "ticket-metrics"
    replication_method := some "INCREMENTAL"
    replication_key := some "updated_at" }

/-- `GroupMemberships` class attributes (lines 190-193). -/
def GroupMemberships : StreamDef :=
  { StreamBase with
    name := some "group-memberships"
    replication_method := some "INCREMENTAL"
    replication_key := some "updated_at" }

/-- `STREAMS` registry (lines 205-216). -/
def STREAMS : List (String × StreamDef) :=
  [ ("tickets", Tickets)
  , ("groups", Groups)
  , ("users", Users)
  , ("organizations", Organizations)
  , ("ticket-audits", TicketAudits)
  , ("ticket-fields", TicketFields)
  , ("group-memberships", GroupMemberships)
  , ("macros", Macros)
  , ("tags", Tags)
  , ("ticket-metrics", TicketMetrics) ]

/-- The loop body shared by the four timestamp-filtered incremental syncs
(`for r in records: self.update_bookmark(state, r.updated_at); yield r`,
e.g. lines 58-60): produces the emission trace, each element paired with
the state as mutated up to and including that emission. -/
def tsLoop (name key : String) : TapState → List Rec → List (Rec × TapState)
  | _, [] => []
  | s, r :: rs =>
    let s' := Stream.update_bookmark name key s r.updated_at
    (r, s') :: tsLoop name key s' rs

/-- The generator body of the timestamp-filtered incremental syncs
(`Organizations.sync` lines 55-60, `Users.sync` 67-72, `Tickets.sync`
79-84, `TicketMetrics.sync` 182-188): read and parse the bookmark (a
failure aborts before anything is emitted), request the remote feed with
`start_time = bookmark` (modelled by the `input` the client returns), then
run the emission loop. -/
def tsSyncBody (name : String) (input : List Rec) (state : TapState) :
    Option (List (Rec × TapState)) :=
  match Stream.get_bookmark name "updated_at" state with
  | none => none
  | some _ => some (tsLoop name "updated_at" state input)

/-- `Organizations.sync` body (lines 55-60). -/
def Organizations.syncBody (input : List Rec) (state : TapState) :
    Option (List (Rec × TapState)) :=
  tsSyncBody "organizations" input state

/-- `Users.sync` body (lines 67-72). -/
def Users.syncBody (input : List Rec) (state : TapState) :
    Option (List (Rec × TapState)) :=
  tsSyncBody "users" input state

/-- `Tickets.sync` body (lines 79-84). -/
def Tickets.syncBody (input : List Rec) (state : TapState) :
    Option (List (Rec × TapState)) :=
  tsSyncBody "tickets" input state

/-- `TicketMetrics.sync` body (lines 182-188). -/
def TicketMetrics.syncBody (input : List Rec) (state : TapState) :
    Option (List (Rec × TapState)) :=
  tsSyncBody "ticket-metrics" input state

/-- The loop body shared by the four manual-filter incremental syncs
(e.g. `Groups.sync` lines 134-138): compare each record's parsed
`updated_at` against the bookmark captured at loop start; emit and write
the bookmark only when `>=`; a record whose timestamp fails to parse
raises (modelled as `none`). -/
def mfLoop (name key : String) (bookmark : Nat) :
    TapState → List Rec → Option (List (Rec × TapState))
  | _, [] => some []
  | s, r :: rs =>
    match utils.strptime_with_tz r.updated_at with
    | none => none
    | some t =>
      if bookmark ≤ t then
        let s' := Stream.update_bookmark name key s r.updated_at
        (mfLoop name key bookmark s' rs).map (fun tr => (r, s') :: tr)
      else
        mfLoop name key bookmark s rs

/-- The generator body of the manual-filter incremental syncs
(`Groups.sync` lines 131-138, `Macros.sync` 145-152, `TicketFields.sync`
167-174, `GroupMemberships.sync` 195-202): read and parse the bookmark,
fetch the whole collection, then filter client-side. -/
def mfSyncBody (name : String) (input : List Rec) (state : TapState) :
    Option (List (Rec × TapState)) :=
  match Stream.get_bookmark name "updated_at" state with
  | none => none
  | some bookmark => mfLoop name "updated_at" bookmark state input

/-- `Groups.sync` body (lines 131-138). -/
def Groups.syncBody (input : List Rec) (state : TapState) :
    Option (List (Rec × TapState)) :=
  mfSyncBody "groups" input state

/-- `Macros.sync` body (lines 145-152). -/
def Macros.syncBody (input : List Rec) (state : TapState) :
    Option (List (Rec × TapState)) :=
  mfSyncBody "macros" input state

/-- `TicketFields.sync` body (lines 167-174). -/
def TicketFields.syncBody (input : List Rec) (state : TapState) :
    Option (List (Rec × TapState)) :=
  mfSyncBody "ticket-fields" input state

/-- `GroupMemberships.sync` body (lines 195-202). -/
def GroupMemberships.syncBody (input : List Rec) (state : TapState) :
    Option (List (Rec × TapState)) :=
  mfSyncBody "group-memberships" input state

/-- `Tags.sync` (lines 159-160): `return self.client.tags()` — the state
argument is unused (`pylint: disable=unused-argument` in the source). -/
def Tags.sync (tags : List Rec) (_state : TapState) : List Rec :=
  tags

/-- The state after the whole trace has been consumed (the input state if
nothing was emitted). -/
def lastTap (s : TapState) (tr : List (Rec × TapState)) : TapState :=
  ((tr.getLast?).map Prod.snd).getD s

/-- An audit record returned by the Zenpy client: an opaque payload
identity together with its `created_at` field. -/
structure Audit where
  aid : Nat
  created_at : BVal
deriving DecidableEq, Repr

/-- Modelled from the spec: the Zenpy cursor-paginated audit generator
(spec sections 4.5 and 6) — a buffered page of `values`, a mutable
`position` (the index of the next element to deliver, adjustable to
rewind), the `before_cursor` pagination token of the buffered page, and
the remaining pages (each with the token it would expose once fetched),
which the client auto-fetches when the buffer is exhausted. -/
structure AuditGen where
  values : List Audit
  position : Nat
  before_cursor : BVal
  rest : List (List Audit × BVal)
deriving DecidableEq, Repr

/-- Modelled from the spec: `reversed(audit_generator)` reverses the
buffered page in place and keeps iterating the same generator object, so
that the walk visits the buffered page in reverse order. -/
def AuditGen.reverseBuffer (g : AuditGen) : AuditGen :=
  { g with values := g.values.reverse }

/-- `TicketAudits.update_cursor_bookmark` (lines 91-96): if the
generator's `before_cursor` differs from the `cursor_value` recorded in
state, persist the new token; otherwise leave the state untouched. -/
def TicketAudits.update_cursor_bookmark (state : TapState) (g : AuditGen) :
    TapState :=
  if g.before_cursor ≠ singer.get_bookmark state "ticket-audits" "cursor_value" then
    singer.write_bookmark state "ticket-audits" "cursor_value" g.before_cursor
  else state

/-- Outcome of one iteration of the reverse reconciliation loop of
`TicketAudits.advance_cursor` (lines 99-105): `cont` models `continue`,
`stop` models either the `break` (after `position -= 1`) or the buffered
page being exhausted, `err` models the parse exception on a malformed
`created_at`. -/
inductive RevStep where
  | cont (g : AuditGen) (s : TapState) : RevStep
  | stop (g : AuditGen) (s : TapState) : RevStep
  | err : RevStep
deriving DecidableEq, Repr

/-- One iteration of the reverse reconciliation loop (lines 99-105): the
generator delivers `values[position]` and advances `position`; the body
first runs `update_cursor_bookmark`, then compares the record's parsed
`created_at` with the bookmark — strictly older records are skipped
(`continue`), otherwise `position` is rewound by one slot and the loop
breaks. -/
def TicketAudits.reverseStep (bookmark : Nat) (g : AuditGen) (s : TapState) :
    RevStep :=
  match g.values.get? g.position with
  | none => RevStep.stop g s
  | some audit =>
    let g' : AuditGen := { g with position := g.position + 1 }
    let s' := TicketAudits.update_cursor_bookmark s g'
    match utils.strptime_with_tz audit.created_at with
    | none => RevStep.err
    | some t =>
      if t < bookmark then RevStep.cont g' s'
      else RevStep.stop { g' with position := g'.position - 1 } s'

/-- The reverse reconciliation loop, driven by a fuel that
`advance_cursor` instantiates with the number of undelivered slots of the
buffered page — the exact number of iterations the `for` loop can make, so
the fuel-0 case (returning the generator and state unchanged) coincides
with the loop falling off the end of the buffer. -/
def TicketAudits.advanceWalk (bookmark : Nat) :
    Nat → AuditGen → TapState → Option (AuditGen × TapState)
  | 0, g, s => some (g, s)
  | fuel + 1, g, s =>
    match TicketAudits.reverseStep bookmark g s with
    | RevStep.cont g' s' => TicketAudits.advanceWalk bookmark fuel g' s'
    | RevStep.stop g' s' => some (g', s')
    | RevStep.err => none

/-- `TicketAudits.advance_cursor` (lines 98-107): walk the buffered page
in reverse (`for audit in reversed(audit_generator)`), persisting cursor
advances and skipping records strictly older than the bookmark; on the
first record at or after the bookmark, rewind `position` by one and stop.
Returns the repositioned generator together with the mutated state
(`none` models a parse exception escaping the loop). -/
def TicketAudits.advance_cursor (g : AuditGen) (bookmark : Nat)
    (state : TapState) : Option (AuditGen × TapState) :=
  let gr := AuditGen.reverseBuffer g
  TicketAudits.advanceWalk bookmark (gr.values.length - gr.position) gr state

/-- Outcome of one iteration of the forward emission loop of
`TicketAudits.sync` (lines 121-124): `yield` emits a record (with the
state after the iteration's two bookmark writes), `page` models the
client auto-fetching the next page inside `next()`, `done` ends the
loop. -/
inductive FwdStep where
  | yield (a : Audit) (g : AuditGen) (s : TapState) : FwdStep
  | page (g : AuditGen) : FwdStep
  | done : FwdStep
deriving DecidableEq, Repr

/-- One iteration of the forward emission loop (lines 121-124): the
generator delivers `values[position]` (fetching the next buffered page
first when the current one is exhausted, which updates `before_cursor`);
the body runs `update_cursor_bookmark`, then writes the record's raw
`created_at` through `update_bookmark`, then yields the record. -/
def TicketAudits.forwardStep (g : AuditGen) (s : TapState) : FwdStep :=
  match g.values.get? g.position with
  | some audit =>
    let g' : AuditGen := { g with position := g.position + 1 }
    let s' := TicketAudits.update_cursor_bookmark s g'
    let s'' := Stream.update_bookmark "ticket-audits" "created_at" s' audit.created_at
    FwdStep.yield audit g' s''
  | none =>
    match g.rest with
    | [] => FwdStep.done
    | (vs, c) :: r => FwdStep.page { values := vs, position := 0, before_cursor := c, rest := r }

/-- The number of generator events still possible: undelivered slots of
the buffered page plus, for each unfetched page, its length and the fetch
event itself. Each `forwardStep` (`yield` or `page`) decreases it by
exactly one, so it is the exact fuel for the forward loop. -/
def AuditGen.measure (g : AuditGen) : Nat :=
  (g.values.length - g.position) + (g.rest.map (fun p => p.1.length + 1)).sum

/-- The forward emission loop unfolded on a fuel that `forwardLoop`
instantiates with `AuditGen.measure`, the exact number of remaining
generator events, so the fuel-0 case (no further emission) coincides with
the generator being exhausted. -/
def TicketAudits.forwardWalk :
    Nat → AuditGen → TapState → List (Audit × TapState)
  | 0, _, _ => []
  | fuel + 1, g, s =>
    match TicketAudits.forwardStep g s with
    | FwdStep.yield a g' s' => (a, s') :: TicketAudits.forwardWalk fuel g' s'
    | FwdStep.page g' => TicketAudits.forwardWalk fuel g' s
    | FwdStep.done => []

/-- The forward emission loop of `TicketAudits.sync` (lines 121-124):
the emission trace, each element paired with the state as mutated up to
and including that emission. -/
def TicketAudits.forwardLoop (g : AuditGen) (s : TapState) :
    List (Audit × TapState) :=
  TicketAudits.forwardWalk (AuditGen.measure g) g s

/-- `TicketAudits.sync` body (lines 109-124): read and parse the
`created_at` bookmark (a failure aborts before anything is emitted), start
the audit generator from the stored `cursor_value` if that is truthy,
reconcile with `advance_cursor`, then run the forward emission loop. The
`client` argument models `self.client.tickets.audits`, receiving the
cursor argument (or `none` when called without one). -/
def TicketAudits.syncBody (client : Option BVal → AuditGen)
    (state : TapState) : Option (List (Audit × TapState)) :=
  match Stream.get_bookmark "ticket-audits" "created_at" state with
  | none => none
  | some bookmark =>
    let cursor_bookmark := singer.get_bookmark state "ticket-audits" "cursor_value"
    let audit_generator :=
      if cursor_bookmark.truthy then client (some cursor_bookmark) else client none
    match TicketAudits.advance_cursor audit_generator bookmark state with
    | none => none
    | some (g1, s1) => some (TicketAudits.forwardLoop g1 s1)

/-- A value held in a metadata entry: a string, a list of strings, or
Python `None` (the `forced-replication-method` of the base class). -/
inductive MVal where
  | s (v : String) : MVal
  | ls (v : List String) : MVal
  | null : MVal
deriving DecidableEq, Repr

/-- Modelled from the spec: the external `singer.metadata` compiled map —
breadcrumb -> metadata-key -> value, insertion-ordered. -/
abbrev MData := List (List String × List (String × MVal))

/-- Modelled from the spec: `metadata.new()`, the empty compiled map. -/
def metadata.new : MData := []

/-- Modelled from the spec: `metadata.write(mdata, breadcrumb, k, val)`,
setting `mdata[breadcrumb][k] = val`. -/
def metadata.write (m : MData) (breadcrumb : List String) (k : String)
    (v : MVal) : MData :=
  alPut m breadcrumb (alPut ((alGet m breadcrumb).getD []) k v)

/-- Modelled from the spec: `metadata.to_list(mdata)`, the compiled map as
an ordered list of (breadcrumb, metadata) entries. -/
def metadata.to_list (m : MData) : MData := m

/-- Lookup of one metadata key under one breadcrumb in the output of
`metadata.to_list`. -/
def mlookup (m : MData) (breadcrumb : List String) (k : String) : Option MVal :=
  (alGet m breadcrumb).bind (fun e => alGet e k)

/-- One iteration of the `for field_name in schema['properties'].keys()`
loop of `Stream.load_metadata` (lines 42-46): tag the field
`inclusion=automatic` when it belongs to the module-level
`KEY_PROPERTIES` constant (note: not the stream's own `key_properties`),
else `inclusion=available`. -/
def inclusionWrite (m : MData) (field_name : String) : MData :=
  if field_name ∈ KEY_PROPERTIES then
    metadata.write m ["properties", field_name] "inclusion" (MVal.s "automatic")
  else
    metadata.write m ["properties", field_name] "inclusion" (MVal.s "available")

/-- `Stream.load_metadata` (lines 35-48): stamp the table-level entries,
then run `inclusionWrite` over the schema's `properties` keys (they are
passed in, since `load_schema` reads an external file). -/
def Stream.load_metadata (sd : StreamDef) (schema_props : List String) : MData :=
  let m := metadata.new
  let m := metadata.write m [] "table-key-properties" (MVal.ls sd.key_properties)
  let m := metadata.write m [] "forced-replication-method"
    (match sd.replication_method with
     | some v => MVal.s v
     | none => MVal.null)
  let m := schema_props.foldl inclusionWrite m
  metadata.to_list m

/-- A freshly constructed (not yet consumed) sync generator: CPython runs
none of a generator function's body at call time, so construction merely
packages the unchanged state together with the deferred body. -/
structure SyncHandle (ρ : Type) where
  tap : TapState
  run : TapState → ρ

/-- `Organizations.sync(state)` as called (generator construction, body
deferred). -/
def Organizations.sync (input : List Rec) (state : TapState) :
    SyncHandle (Option (List (Rec × TapState))) :=
  { tap := state, run := Organizations.syncBody input }

/-- `Users.sync(state)` as called (generator construction, body
deferred). -/
def Users.sync (input : List Rec) (state : TapState) :
    SyncHandle (Option (List (Rec × TapState))) :=
  { tap := state, run := Users.syncBody input }

/-- `Tickets.sync(state)` as called (generator construction, body
deferred). -/
def Tickets.sync (input : List Rec) (state : TapState) :
    SyncHandle (Option (List (Rec × TapState))) :=
  { tap := state, run := Tickets.syncBody input }

/-- `TicketMetrics.sync(state)` as called (generator construction, body
deferred). -/
def TicketMetrics.sync (input : List Rec) (state : TapState) :
    SyncHandle (Option (List (Rec × TapState))) :=
  { tap := state, run := TicketMetrics.syncBody input }

/-- `Groups.sync(state)` as called (generator construction, body
deferred). -/
def Groups.sync (input : List Rec) (state : TapState) :
    SyncHandle (Option (List (Rec × TapState))) :=
  { tap := state, run := Groups.syncBody input }

/-- `Macros.sync(state)` as called (generator construction, body
deferred). -/
def Macros.sync (input : List Rec) (state : TapState) :
    SyncHandle (Option (List (Rec × TapState))) :=
  { tap := state, run := Macros.syncBody input }

/-- `TicketFields.sync(state)` as called (generator construction, body
deferred). -/
def TicketFields.sync (input : List Rec) (state : TapState) :
    SyncHandle (Option (List (Rec × TapState))) :=
  { tap := state, run := TicketFields.syncBody input }

/-- `GroupMemberships.sync(state)` as called (generator construction,
body deferred). -/
def GroupMemberships.sync (input : List Rec) (state : TapState) :
    SyncHandle (Option (List (Rec × TapState))) :=
  { tap := state, run := GroupMemberships.syncBody input }

/-- `TicketAudits.sync(state)` as called (generator construction, body
deferred). -/
def TicketAudits.sync (client : Option BVal → AuditGen) (state : TapState) :
    SyncHandle (Option (List (Audit × TapState))) :=
  { tap := state, run := TicketAudits.syncBody client }

/-- The names of the four timestamp-filtered incremental streams. -/
def tsStreamNames : List String :=
  ["organizations", "users", "tickets", "ticket-metrics"]

/-- The names of the four manual-filter incremental streams. -/
def mfStreamNames : List String :=
  ["groups", "macros", "ticket-fields", "group-memberships"]

theorem alGet_alPut_self {κ α : Type} [DecidableEq κ] (l : List (κ × α))
    (k : κ) (v : α) : alGet (alPut l k v) k = some v := by
  induction l with
  | nil => simp [alGet, alPut]
  | cons p rest ih =>
    by_cases h : p.1 = k
    · simp [alGet, alPut, h]
    · simpa [alGet, alPut, h] using ih

theorem alGet_alPut_ne {κ α : Type} [DecidableEq κ] (l : List (κ × α))
    (k k' : κ) (v : α) (h : k' ≠ k) : alGet (alPut l k v) k' = alGet l k' := by
  have hne : k ≠ k' := fun hk => h hk.symm
  induction l with
  | nil => simp [alGet, alPut, hne]
  | cons p rest ih =>
    cases p with
    | mk pk pv =>
      by_cases hp : pk = k
      · subst hp
        simp [alGet, alPut, hne]
      · simp [alGet, alPut, hp, ih]

theorem singer.get_write_same (s : TapState) (n k : String) (v : BVal) :
    singer.get_bookmark (singer.write_bookmark s n k v) n k = v := by
  simp [singer.get_bookmark, singer.write_bookmark, alGet_alPut_self]

theorem singer.get_write_other_key (s : TapState) (n k k' : String) (v : BVal)
    (h : k' ≠ k) :
    singer.get_bookmark (singer.write_bookmark s n k v) n k' =
      singer.get_bookmark s n k' := by
  simp only [singer.get_bookmark, singer.write_bookmark, alGet_alPut_self]
  rw [alGet_alPut_ne _ _ _ _ h]
  cases hs : alGet s n <;> simp [hs, alGet]

theorem singer.get_write_other_name (s : TapState) (n n' k k' : String)
    (v : BVal) (h : n' ≠ n) :
    singer.get_bookmark (singer.write_bookmark s n k v) n' k' =
      singer.get_bookmark s n' k' := by
  simp only [singer.get_bookmark, singer.write_bookmark]
  rw [alGet_alPut_ne _ _ _ _ h]

theorem tsLoop_map_fst (name key : String) (input : List Rec) :
    ∀ s : TapState, (tsLoop name key s input).map Prod.fst = input := by
  induction input with
  | nil => intro s; rfl
  | cons r rs ih => intro s; simp [tsLoop, ih]

theorem tsLoop_last (name key : String) :
    ∀ (input : List Rec) (s : TapState) (r : Rec),
      input.getLast? = some r →
      singer.get_bookmark (lastTap s (tsLoop name key s input)) name key =
        r.updated_at := by
  intro input
  induction input with
  | nil => intro s r hr; simp at hr
  | cons a tl ih =>
    intro s r hr
    cases tl with
    | nil =>
      simp only [List.getLast?_singleton, Option.some_inj] at hr
      subst hr
      simp [tsLoop, lastTap, Stream.update_bookmark, singer.get_write_same]
    | cons b tl' =>
      rw [List.getLast?_cons_cons] at hr
      have := ih (Stream.update_bookmark name key s a.updated_at) r hr
      simpa [tsLoop, lastTap, List.getLast?_cons_cons] using this

/-- The behaviour claimed for one timestamp-filtered stream: the sync
body succeeds, emits every input record in order, every emitted record's
timestamp is at or after the starting bookmark, and the stored bookmark
after full consumption equals the last record's timestamp. -/
def tsStreamOK (out : Option (List (Rec × TapState))) (name : String)
    (s : TapState) (input : List Rec) (b0 : Nat) : Prop :=
  ∃ tr, out = some tr ∧
    tr.map Prod.fst = input ∧
    (∀ p ∈ tr, b0 ≤ tsOf p.1) ∧
    (∀ r, input.getLast? = some r →
      singer.get_bookmark (lastTap s tr) name "updated_at" = r.updated_at)

theorem tsSync_ok (name : String) (s : TapState) (input : List Rec) (b0 : Nat)
    (hb : Stream.get_bookmark name "updated_at" s = some b0)
    (hge : ∀ r ∈ input, b0 ≤ tsOf r) :
    tsStreamOK (tsSyncBody name input s) name s input b0 := by
  refine ⟨tsLoop name "updated_at" s input, ?_, tsLoop_map_fst name "updated_at" input s, ?_, ?_⟩
  · simp [tsSyncBody, hb]
  · intro p hp
    apply hge
    have hmem : p.1 ∈ (tsLoop name "updated_at" s input).map Prod.fst :=
      List.mem_map_of_mem Prod.fst hp
    rwa [tsLoop_map_fst] at hmem
  · intro r hr
    exact tsLoop_last name "updated_at" input s r hr

/-- The behaviour claimed for one manual-filter stream: the sync body
succeeds; the emitted records are exactly the input records whose
timestamp is at or after the starting bookmark, in order; immediately
after each emission the stored bookmark equals that record's timestamp
(hence is at least it); and the whole run is unchanged if the stale
records are removed from the input, so a stale record neither is emitted
nor moves the bookmark. -/
def mfStreamOK (out : Option (List (Rec × TapState))) (name : String)
    (s : TapState) (input : List Rec) (b0 : Nat) : Prop :=
  ∃ tr, out = some tr ∧
    tr.map Prod.fst = input.filter (fun r => decide (b0 ≤ tsOf r)) ∧
    (∀ p ∈ tr, singer.get_bookmark p.2 name "updated_at" = p.1.updated_at ∧
      b0 ≤ tsOf p.1) ∧
    mfSyncBody name (input.filter (fun r => decide (b0 ≤ tsOf r))) s = some tr

theorem mfLoop_ok (name key : String) (b0 : Nat) :
    ∀ (input : List Rec) (s : TapState),
      (∀ r ∈ input, (utils.strptime_with_tz r.updated_at).isSome = true) →
      ∃ tr, mfLoop name key b0 s input = some tr ∧
        tr.map Prod.fst = input.filter (fun r => decide (b0 ≤ tsOf r)) ∧
        (∀ p ∈ tr, singer.get_bookmark p.2 name key = p.1.updated_at ∧
          b0 ≤ tsOf p.1) ∧
        mfLoop name key b0 s (input.filter (fun r => decide (b0 ≤ tsOf r))) =
          some tr := by
  intro input
  induction input with
  | nil => intro s _; exact ⟨[], rfl, rfl, by simp, rfl⟩
  | cons r rs ih =>
    intro s h
    have hr : (utils.strptime_with_tz r.updated_at).isSome = true :=
      h r (List.mem_cons_self r rs)
    obtain ⟨t, ht⟩ := Option.isSome_iff_exists.mp hr
    have hts : tsOf r = t := by simp [tsOf, ht]
    have hrest : ∀ x ∈ rs, (utils.strptime_with_tz x.updated_at).isSome = true :=
      fun x hx => h x (List.mem_cons_of_mem r hx)
    by_cases hcmp : b0 ≤ t
    · obtain ⟨tr, htr, hmap, hstep, hfilt⟩ :=
        ih (Stream.update_bookmark name key s r.updated_at) hrest
      refine ⟨(r, Stream.update_bookmark name key s r.updated_at) :: tr,
        ?_, ?_, ?_, ?_⟩
      · simp [mfLoop, ht, hcmp, htr]
      · simp [List.filter_cons, hts, hcmp, hmap]
      · intro p hp
        rcases List.mem_cons.mp hp with hph | hpt
        · subst hph
          exact ⟨by simp [Stream.update_bookmark, singer.get_write_same],
            by simp [hts, hcmp]⟩
        · exact hstep p hpt
      · rw [List.filter_cons]
        simp only [hts, hcmp, decide_True]
        simp [mfLoop, ht, hcmp, hfilt]
    · obtain ⟨tr, htr, hmap, hstep, hfilt⟩ := ih s hrest
      refine ⟨tr, ?_, ?_, hstep, ?_⟩
      · simp [mfLoop, ht, hcmp, htr]
      · simp [List.filter_cons, hts, hcmp, hmap]
      · rw [List.filter_cons]
        simp only [hts, hcmp, decide_False]
        simpa using hfilt

theorem mfSync_ok (name : String) (s : TapState) (input : List Rec) (b0 : Nat)
    (hb : Stream.get_bookmark name "updated_at" s = some b0)
    (hparse : ∀ r ∈ input, (utils.strptime_with_tz r.updated_at).isSome = true) :
    mfStreamOK (mfSyncBody name input s) name s input b0 := by
  obtain ⟨tr, htr, hmap, hstep, hfilt⟩ := mfLoop_ok name "updated_at" b0 input s hparse
  refine ⟨tr, ?_, hmap, hstep, ?_⟩
  · simp [mfSyncBody, hb, htr]
  · simp [mfSyncBody, hb, hfilt]

/-- C1: For every timestamp-filtered incremental stream (Organizations,
Users, Tickets, TicketMetrics): for any input sequence of records with
non-decreasing timestamps, each at or after the starting bookmark, after
the sync generator is fully consumed the stored bookmark equals the last
record's timestamp, every record is emitted, and every emitted record's
timestamp is at or after the bookmark value at call start. -/
theorem claim1_timestamp_filtered_streams (s : TapState) (input : List Rec)
    (b0 : Nat)
    (hparse : ∀ r ∈ input, (utils.strptime_with_tz r.updated_at).isSome = true)
    (hge : ∀ r ∈ input, b0 ≤ tsOf r)
    (hmono : List.Chain' (fun a b => tsOf a ≤ tsOf b) input) :
    (Stream.get_bookmark "organizations" "updated_at" s = some b0 →
      tsStreamOK (Organizations.syncBody input s) "organizations" s input b0) ∧
    (Stream.get_bookmark "users" "updated_at" s = some b0 →
      tsStreamOK (Users.syncBody input s) "users" s input b0) ∧
    (Stream.get_bookmark "tickets" "updated_at" s = some b0 →
      tsStreamOK (Tickets.syncBody input s) "tickets" s input b0) ∧
    (Stream.get_bookmark "ticket-metrics" "updated_at" s = some b0 →
      tsStreamOK (TicketMetrics.syncBody input s) "ticket-metrics" s input b0) :=
  ⟨fun hb => tsSync_ok "organizations" s input b0 hb hge,
   fun hb => tsSync_ok "users" s input b0 hb hge,
   fun hb => tsSync_ok "tickets" s input b0 hb hge,
   fun hb => tsSync_ok "ticket-metrics" s input b0 hb hge⟩

/-- Witness for C1: a concrete two-record run of the Organizations
stream starting from bookmark instant 5. -/
theorem claim1_timestamp_filtered_streams_witness :
    tsStreamOK
      (Organizations.syncBody [⟨1, BVal.ts 5⟩, ⟨2, BVal.ts 6⟩]
        [("organizations", [("updated_at", BVal.ts 5)])])
      "organizations" [("organizations", [("updated_at", BVal.ts 5)])]
      [⟨1, BVal.ts 5⟩, ⟨2, BVal.ts 6⟩] 5 :=
  (claim1_timestamp_filtered_streams
      [("organizations", [("updated_at", BVal.ts 5)])]
      [⟨1, BVal.ts 5⟩, ⟨2, BVal.ts 6⟩] 5
      (by decide) (by decide)
      (by norm_num [List.chain'_cons, tsOf, utils.strptime_with_tz])).1
    (by decide)

/-- C2: For every manual-filter incremental stream (Groups, Macros,
TicketFields, GroupMemberships): for any input collection returned by the
client (whose timestamps parse), a record whose timestamp is strictly
less than the starting bookmark is never emitted and does not change the
bookmark (the run equals the run on the input with stale records
removed), and a record whose timestamp is at or after the starting
bookmark is always emitted and sets the stored bookmark to at least that
record's timestamp (immediately after its emission the stored bookmark is
exactly its timestamp). -/
theorem claim2_manual_filter_streams (s : TapState) (input : List Rec)
    (b0 : Nat)
    (hparse : ∀ r ∈ input, (utils.strptime_with_tz r.updated_at).isSome = true) :
    (Stream.get_bookmark "groups" "updated_at" s = some b0 →
      mfStreamOK (Groups.syncBody input s) "groups" s input b0) ∧
    (Stream.get_bookmark "macros" "updated_at" s = some b0 →
      mfStreamOK (Macros.syncBody input s) "macros" s input b0) ∧
    (Stream.get_bookmark "ticket-fields" "updated_at" s = some b0 →
      mfStreamOK (TicketFields.syncBody input s) "ticket-fields" s input b0) ∧
    (Stream.get_bookmark "group-memberships" "updated_at" s = some b0 →
      mfStreamOK (GroupMemberships.syncBody input s) "group-memberships" s
        input b0) :=
  ⟨fun hb => mfSync_ok "groups" s input b0 hb hparse,
   fun hb => mfSync_ok "macros" s input b0 hb hparse,
   fun hb => mfSync_ok "ticket-fields" s input b0 hb hparse,
   fun hb => mfSync_ok "group-memberships" s input b0 hb hparse⟩

/-- Witness for C2: a concrete run of the Groups stream from bookmark
instant 5 over one stale and two fresh records. -/
theorem claim2_manual_filter_streams_witness :
    mfStreamOK
      (Groups.syncBody [⟨1, BVal.ts 3⟩, ⟨2, BVal.ts 7⟩, ⟨3, BVal.ts 5⟩]
        [("groups", [("updated_at", BVal.ts 5)])])
      "groups" [("groups", [("updated_at", BVal.ts 5)])]
      [⟨1, BVal.ts 3⟩, ⟨2, BVal.ts 7⟩, ⟨3, BVal.ts 5⟩] 5 :=
  (claim2_manual_filter_streams
      [("groups", [("updated_at", BVal.ts 5)])]
      [⟨1, BVal.ts 3⟩, ⟨2, BVal.ts 7⟩, ⟨3, BVal.ts 5⟩] 5
      (by decide)).1 (by decide)

/-- The buffered audit page of the C3 scenario, newest-first as fetched,
so that the reverse walk visits timestamps 7, 8, 9, 10, 11 in that order
(T = 10): `values` = [T+1, T, T-1, T-2, T-3]. -/
def auditPageT : AuditGen :=
  { values := [⟨5, BVal.ts 11⟩, ⟨4, BVal.ts 10⟩, ⟨3, BVal.ts 9⟩,
               ⟨2, BVal.ts 8⟩, ⟨1, BVal.ts 7⟩]
    position := 0
    before_cursor := BVal.str 99
    rest := [] }

/-- The state of the C3 scenario: `created_at` bookmark stored at T-1. -/
def auditStateT : TapState := [("ticket-audits", [("created_at", BVal.ts 9)])]

/-- C3: For the TicketAudits stream: given a buffered page whose records,
walked in reverse, have timestamps T-3, T-2, T-1, T, T+1 and a stored
`created_at` bookmark of T-1 (here T = 10), `advance_cursor` stops with
the generator positioned exactly at the record timestamped T-1 (the walk
consumed three slots and rewound one, leaving `position = 2`, which
indexes the T-1 record — not an earlier record, not a later one), so that
the subsequent forward emission loop re-delivers the T-1 record first. -/
theorem claim3_advance_cursor_stops_at_bookmark :
    ∃ g1 s1, TicketAudits.advance_cursor auditPageT 9 auditStateT = some (g1, s1) ∧
      g1.position = 2 ∧
      g1.values.get? g1.position = some ⟨3, BVal.ts 9⟩ ∧
      (TicketAudits.forwardLoop g1 s1).map Prod.fst =
        [⟨3, BVal.ts 9⟩, ⟨4, BVal.ts 10⟩, ⟨5, BVal.ts 11⟩] ∧
      (TicketAudits.syncBody (fun _ => auditPageT) auditStateT).map
          (fun tr => tr.map Prod.fst) =
        some [⟨3, BVal.ts 9⟩, ⟨4, BVal.ts 10⟩, ⟨5, BVal.ts 11⟩] := by
  exact ⟨_, _, rfl, by decide, by decide, by decide, by decide⟩

/-- C5 counterexample: on the claim's exact input — state the empty
mapping, remote records timestamped 2020-01-01T00:00:00Z and
2020-01-02T00:00:00Z (instants 20200101 and 20200102) — the bookmark
parse fails on the missing entry before anything is emitted, so the sync
produces the error outcome and no trace at all, contradicting the claimed
emission of both records with a final bookmark of 2020-01-02. -/
theorem claim5_empty_state_counterexample :
    Organizations.syncBody [⟨1, BVal.ts 20200101⟩, ⟨2, BVal.ts 20200102⟩] [] =
        none ∧
    ¬ ∃ tr, Organizations.syncBody
        [⟨1, BVal.ts 20200101⟩, ⟨2, BVal.ts 20200102⟩] [] = some tr ∧
      tr.map Prod.fst = [⟨1, BVal.ts 20200101⟩, ⟨2, BVal.ts 20200102⟩] := by
  refine ⟨rfl, ?_⟩
  rintro ⟨tr, htr, -⟩
  rw [show Organizations.syncBody
      [⟨1, BVal.ts 20200101⟩, ⟨2, BVal.ts 20200102⟩] [] = none from rfl] at htr
  cases htr

/-- C5 amended: with the starting state seeding the organizations
bookmark at 2020-01-01T00:00:00Z (instead of the empty mapping, on which
the bookmark parse fails by design), the sync emits both records in order
and afterwards state["organizations"]["updated_at"] equals
2020-01-02T00:00:00Z. -/
theorem claim5_end_to_end_amended :
    ∃ tr, Organizations.syncBody
        [⟨1, BVal.ts 20200101⟩, ⟨2, BVal.ts 20200102⟩]
        [("organizations", [("updated_at", BVal.ts 20200101)])] = some tr ∧
      tr.map Prod.fst = [⟨1, BVal.ts 20200101⟩, ⟨2, BVal.ts 20200102⟩] ∧
      singer.get_bookmark
          (lastTap [("organizations", [("updated_at", BVal.ts 20200101)])] tr)
          "organizations" "updated_at" = BVal.ts 20200102 := by
  refine ⟨_, rfl, ?_, ?_⟩ <;> decide

/-- C6: For every stream, `get_bookmark(state)` returns a parsed
timezone-aware timestamp exactly when the value stored at
state[name][replication_key] is a well-formed timestamp; when the entry
is missing or malformed it fails with a parse error (modelled as `none`)
— no local recovery and no silent reset to a default. -/
theorem claim6_get_bookmark_fails_on_bad_value (name key : String)
    (state : TapState) :
    (∀ t, Stream.get_bookmark name key state = some t ↔
      singer.get_bookmark state name key = BVal.ts t) ∧
    ((∀ t, singer.get_bookmark state name key ≠ BVal.ts t) →
      Stream.get_bookmark name key state = none) := by
  constructor
  · intro t
    cases h : singer.get_bookmark state name key <;>
      simp [Stream.get_bookmark, utils.strptime_with_tz, h]
  · intro hne
    cases h : singer.get_bookmark state name key with
    | ts t => exact absurd h (hne t)
    | null => simp [Stream.get_bookmark, utils.strptime_with_tz, h]
    | str v => simp [Stream.get_bookmark, utils.strptime_with_tz, h]

/-- Witness for C6: a stream whose stored bookmark is a non-timestamp
string gets a parse failure, not a default. -/
theorem claim6_get_bookmark_fails_on_bad_value_witness :
    Stream.get_bookmark "organizations" "updated_at"
      [("organizations", [("updated_at", BVal.str 3)])] = none :=
  (claim6_get_bookmark_fails_on_bad_value "organizations" "updated_at"
      [("organizations", [("updated_at", BVal.str 3)])]).2
    (fun t h => by simp [singer.get_bookmark, alGet] at h)

/-- C7: For the Tags stream: for any two state inputs, `sync` produces
the same output sequence (the output depends only on the client's
collection, not on bookmark contents), and `Tags.key_properties` is the
empty list. -/
theorem claim7_tags_state_independent (tags : List Rec) (s1 s2 : TapState) :
    Tags.sync tags s1 = Tags.sync tags s2 ∧ Tags.key_properties = [] :=
  ⟨rfl, rfl⟩

/-- C9: For every incremental stream, calling `sync(state)` without
consuming any element of the returned generator leaves the state mapping
unchanged — construction only packages the deferred body, so no bookmark
or cursor_value entry is read or written until iteration begins. -/
theorem claim9_sync_construction_leaves_state (state : TapState)
    (input : List Rec) (client : Option BVal → AuditGen) :
    (Organizations.sync input state).tap = state ∧
    (Users.sync input state).tap = state ∧
    (Tickets.sync input state).tap = state ∧
    (TicketMetrics.sync input state).tap = state ∧
    (Groups.sync input state).tap = state ∧
    (Macros.sync input state).tap = state ∧
    (TicketFields.sync input state).tap = state ∧
    (GroupMemberships.sync input state).tap = state ∧
    (TicketAudits.sync client state).tap = state :=
  ⟨rfl, rfl, rfl, rfl, rfl, rfl, rfl, rfl, rfl⟩

/-- C10: Registry consistency: every entry of STREAMS maps a key to a
class whose `name` equals the key, whose `replication_method` is
non-null, and, whenever that method is INCREMENTAL, whose
`replication_key` is non-null. -/
theorem claim10_registry_consistent (k : String) (sd : StreamDef)
    (h : (k, sd) ∈ STREAMS) :
    sd.name = some k ∧ sd.replication_method ≠ none ∧
      (sd.replication_method = some "INCREMENTAL" →
        sd.replication_key ≠ none) := by
  have hall : ∀ p ∈ STREAMS, p.2.name = some p.1 ∧
      p.2.replication_method ≠ none ∧
      (p.2.replication_method = some "INCREMENTAL" →
        p.2.replication_key ≠ none) := by decide
  exact hall (k, sd) h

/-- Witness for C10: the registry entry for the Tags stream. -/
theorem claim10_registry_consistent_witness :
    Tags.name = some "tags" ∧ Tags.replication_method ≠ none ∧
      (Tags.replication_method = some "INCREMENTAL" →
        Tags.replication_key ≠ none) :=
  claim10_registry_consistent "tags" Tags (by decide)

theorem update_cursor_persists (s : TapState) (g : AuditGen) :
    singer.get_bookmark (TicketAudits.update_cursor_bookmark s g)
      "ticket-audits" "cursor_value" = g.before_cursor := by
  by_cases h : g.before_cursor = singer.get_bookmark s "ticket-audits" "cursor_value"
  · simp [TicketAudits.update_cursor_bookmark, h]
  · simp [TicketAudits.update_cursor_bookmark, h, singer.get_write_same]

theorem update_cursor_preserves_created (s : TapState) (g : AuditGen) :
    singer.get_bookmark (TicketAudits.update_cursor_bookmark s g)
      "ticket-audits" "created_at" =
    singer.get_bookmark s "ticket-audits" "created_at" := by
  unfold TicketAudits.update_cursor_bookmark
  split
  · exact singer.get_write_other_key _ _ _ _ _ (by decide)
  · rfl

/-- C4: For the TicketAudits stream, at every step of both the reverse
reconciliation pass and the forward emission loop, if the generator's
`before_cursor` token differs from the `cursor_value` stored in state,
the new token is written to state before the record's `created_at` is
compared to the bookmark or the `created_at` bookmark is updated; no step
of either loop skips this persistence check.  Formally: (i) the
persistence primitive always leaves the stored `cursor_value` equal to
the generator's token; (ii) every reverse-pass iteration that processes a
record (`advanceWalk` is the iteration of `reverseStep`) leaves a state
whose `cursor_value` equals the generator's token while its `created_at`
bookmark is untouched; (iii) every forward-loop emission (`forwardWalk`
is the iteration of `forwardStep`) produces its state by writing
`created_at` on top of the already-persisted cursor state, so its
`cursor_value` again equals the generator's token. -/
theorem claim4_cursor_persisted_each_step (g : AuditGen) (s : TapState)
    (b : Nat) :
    (singer.get_bookmark (TicketAudits.update_cursor_bookmark s g)
      "ticket-audits" "cursor_value" = g.before_cursor) ∧
    (∀ g' s', (TicketAudits.reverseStep b g s = RevStep.cont g' s' ∨
        ((g.values.get? g.position).isSome = true ∧
          TicketAudits.reverseStep b g s = RevStep.stop g' s')) →
      singer.get_bookmark s' "ticket-audits" "cursor_value" =
          g'.before_cursor ∧
        singer.get_bookmark s' "ticket-audits" "created_at" =
          singer.get_bookmark s "ticket-audits" "created_at") ∧
    (∀ a g' s', TicketAudits.forwardStep g s = FwdStep.yield a g' s' →
      s' = Stream.update_bookmark "ticket-audits" "created_at"
          (TicketAudits.update_cursor_bookmark s g') a.created_at ∧
        singer.get_bookmark s' "ticket-audits" "cursor_value" =
          g'.before_cursor) := by
  refine ⟨update_cursor_persists s g, ?_, ?_⟩
  · intro g' s' h
    rcases h with h | ⟨hsome, h⟩
    · unfold TicketAudits.reverseStep at h
      split at h
      · cases h
      · split at h
        · cases h
        · split at h
          · cases h
            exact ⟨update_cursor_persists s _, update_cursor_preserves_created s _⟩
          · cases h
    · unfold TicketAudits.reverseStep at h
      split at h
      · rename_i hget
        rw [hget] at hsome
        cases hsome
      · split at h
        · cases h
        · split at h
          · cases h
          · cases h
            exact ⟨update_cursor_persists s _, update_cursor_preserves_created s _⟩
  · intro a g' s' h
    unfold TicketAudits.forwardStep at h
    split at h
    · cases h
      refine ⟨rfl, ?_⟩
      rw [Stream.update_bookmark,
        singer.get_write_other_key _ _ _ _ _ (by decide)]
      exact update_cursor_persists s _
    · split at h
      · cases h
      · cases h

/-- Witness for C4: a concrete forward-loop step over a one-record page
whose cursor token is not yet in state. -/
theorem claim4_cursor_persisted_each_step_witness :
    ([("ticket-audits",
        [("cursor_value", BVal.str 7), ("created_at", BVal.ts 5)])] :
        TapState) =
      Stream.update_bookmark "ticket-audits" "created_at"
        (TicketAudits.update_cursor_bookmark []
          ⟨[⟨1, BVal.ts 5⟩], 1, BVal.str 7, []⟩) (BVal.ts 5) ∧
    singer.get_bookmark
        [("ticket-audits",
          [("cursor_value", BVal.str 7), ("created_at", BVal.ts 5)])]
        "ticket-audits" "cursor_value" = BVal.str 7 :=
  (claim4_cursor_persisted_each_step ⟨[⟨1, BVal.ts 5⟩], 0, BVal.str 7, []⟩ [] 3).2.2
    ⟨1, BVal.ts 5⟩ ⟨[⟨1, BVal.ts 5⟩], 1, BVal.str 7, []⟩
    [("ticket-audits", [("cursor_value", BVal.str 7), ("created_at", BVal.ts 5)])]
    (by decide)

theorem mlookup_write_same (m : MData) (bc : List String) (k : String)
    (v : MVal) : mlookup (metadata.write m bc k v) bc k = some v := by
  simp [mlookup, metadata.write, alGet_alPut_self]

theorem mlookup_write_other_bc (m : MData) (bc bc' : List String)
    (k k' : String) (v : MVal) (h : bc' ≠ bc) :
    mlookup (metadata.write m bc k v) bc' k' = mlookup m bc' k' := by
  simp [mlookup, metadata.write, alGet_alPut_ne _ _ _ _ h]

theorem mlookup_write_other_key (m : MData) (bc : List String)
    (k k' : String) (v : MVal) (h : k' ≠ k) :
    mlookup (metadata.write m bc k v) bc k' = mlookup m bc k' := by
  simp only [mlookup, metadata.write, alGet_alPut_self, Option.some_bind]
  rw [alGet_alPut_ne _ _ _ _ h]
  cases hm : alGet m bc <;> simp [alGet]

theorem inclusionWrite_other (m : MData) (f : String) (bc : List String)
    (k : String) (h : bc ≠ ["properties", f]) :
    mlookup (inclusionWrite m f) bc k = mlookup m bc k := by
  unfold inclusionWrite
  split <;> exact mlookup_write_other_bc _ _ _ _ _ _ h

theorem inclusionFold_spec (props : List String) :
    ∀ m : MData,
      (∀ (bc : List String) (k : String), (∀ f ∈ props, bc ≠ ["properties", f]) →
        mlookup (props.foldl inclusionWrite m) bc k = mlookup m bc k) ∧
      (∀ f ∈ props,
        mlookup (props.foldl inclusionWrite m) ["properties", f] "inclusion" =
          some (MVal.s (if f ∈ KEY_PROPERTIES then "automatic" else "available"))) := by
  induction props with
  | nil => intro m; exact ⟨fun bc k _ => rfl, by simp⟩
  | cons f fs ih =>
    intro m
    constructor
    · intro bc k hbc
      have h1 : mlookup (fs.foldl inclusionWrite (inclusionWrite m f)) bc k =
          mlookup (inclusionWrite m f) bc k :=
        (ih (inclusionWrite m f)).1 bc k
          (fun x hx => hbc x (List.mem_cons_of_mem f hx))
      rw [List.foldl_cons, h1,
        inclusionWrite_other m f bc k (hbc f (List.mem_cons_self f fs))]
    · intro x hx
      rw [List.foldl_cons]
      rcases List.mem_cons.mp hx with rfl | hxs
      · by_cases hxf : x ∈ fs
        · exact (ih (inclusionWrite m x)).2 x hxf
        · have h1 : mlookup (fs.foldl inclusionWrite (inclusionWrite m x))
              ["properties", x] "inclusion" =
              mlookup (inclusionWrite m x) ["properties", x] "inclusion" :=
            (ih (inclusionWrite m x)).1 _ _ (by
              intro y hy hxy
              have hxy' : x = y := by simpa using hxy
              exact hxf (hxy' ▸ hy))
          rw [h1]
          unfold inclusionWrite
          by_cases hk : x ∈ KEY_PROPERTIES <;> simp [hk, mlookup_write_same]
      · exact (ih (inclusionWrite m f)).2 x hxs

/-- C8 counterexample: for the Tags stream (whose `key_properties` is the
empty list) and a schema containing the field "id", `load_metadata` tags
"id" with `inclusion=automatic` — the code tests membership in the
module-level `KEY_PROPERTIES` constant, not in the stream's own
`key_properties` — although "id" is not a key property of the stream, for
which the claim requires `available`. -/
theorem claim8_tags_inclusion_counterexample :
    mlookup (Stream.load_metadata Tags ["id"]) ["properties", "id"]
        "inclusion" = some (MVal.s "automatic") ∧
    "id" ∉ Tags.key_properties ∧
    mlookup (Stream.load_metadata Tags ["id"]) ["properties", "id"]
        "inclusion" ≠ some (MVal.s "available") := by
  decide

/-- C8 amended: For every stream, `load_metadata` returns a metadata list
in which each field of the schema's properties is tagged
`inclusion=automatic` if that field belongs to the module-level
`KEY_PROPERTIES` constant (["id"]) — which coincides with the stream's
own key properties for every stream except Tags — and
`inclusion=available` otherwise, and which contains a table-level
`table-key-properties` entry equal to the stream's `key_properties` and a
`forced-replication-method` entry equal to the stream's
`replication_method`. -/
theorem claim8_load_metadata_amended (sd : StreamDef) (props : List String) :
    (∀ f ∈ props,
      mlookup (Stream.load_metadata sd props) ["properties", f] "inclusion" =
        some (MVal.s (if f ∈ KEY_PROPERTIES then "automatic" else "available"))) ∧
    mlookup (Stream.load_metadata sd props) [] "table-key-properties" =
      some (MVal.ls sd.key_properties) ∧
    mlookup (Stream.load_metadata sd props) [] "forced-replication-method" =
      some (match sd.replication_method with
            | some v => MVal.s v
            | none => MVal.null) := by
  unfold Stream.load_metadata metadata.to_list
  refine ⟨fun f hf => (inclusionFold_spec props _).2 f hf, ?_, ?_⟩
  · rw [(inclusionFold_spec props _).1 [] "table-key-properties"
      (fun f _ => by simp),
      mlookup_write_other_key _ _ _ _ _ (by decide), mlookup_write_same]
  · rw [(inclusionFold_spec props _).1 [] "forced-replication-method"
      (fun f _ => by simp),
      mlookup_write_same]

/-- Witness for C8 (amended): for the Organizations stream with schema
fields "id" and "name", the non-key field "name" is tagged available. -/
theorem claim8_load_metadata_amended_witness :
    mlookup (Stream.load_metadata Organizations ["id", "name"])
      ["properties", "name"] "inclusion" = some (MVal.s "available") := by
  have h := (claim8_load_metadata_amended Organizations ["id", "name"]).1
    "name" (by decide)
  simpa using h
